import Mathlib

/-
  Verification of the security-rules management client
  (src/src/security-rules/security-rules.ts).

  The repository ships the public interface declarations (the value types
  RulesFile, RulesetMetadata, RulesetMetadataList, Ruleset and the
  SecurityRules facade).  The operations behind that interface are modelled
  here from the specification, as explicit state passing over a backend
  store.  Fallible operations return Except.
-/

set_option autoImplicit false

namespace SecRules

/-- Classified error kinds of the client (spec section 7). -/
inductive ErrorKind where
  | invalidArgument
  | notFound
  | alreadyExists
  | unavailable
  deriving DecidableEq, Repr

/-- A source file containing security rules: a name paired with the raw
source content (interface RulesFile, security-rules.ts lines 25-28). -/
structure RulesFile where
  name : String
  content : String
  deriving DecidableEq, Repr

/-- Metadata of a ruleset: short name and creation-time string
(interface RulesetMetadata, security-rules.ts lines 33-45). -/
structure RulesetMetadata where
  name : String
  createTime : String
  deriving DecidableEq, Repr

/-- A compiled ruleset: its metadata together with the ordered list of
source files (interface Ruleset, security-rules.ts lines 58-60). -/
structure Ruleset extends RulesetMetadata where
  source : List RulesFile
  deriving DecidableEq, Repr

/-- The metadata part of a ruleset. -/
def rulesetMeta (r : Ruleset) : RulesetMetadata :=
  r.toRulesetMetadata

/-- One page of a metadata listing (interface RulesetMetadataList,
security-rules.ts lines 50-53).  The opaque continuation token of the
wire format is modelled as a Nat offset. -/
structure RulesetMetadataList where
  rulesets : List RulesetMetadata
  nextPageToken : Option Nat
  deriving DecidableEq, Repr

/-- Is `b` a UTF-8 continuation byte (10xxxxxx)? -/
def contByte (b : Nat) : Bool :=
  128 ≤ b && b < 192

/-- Modelled from the spec: byte-to-text decoding used by the RulesFile
factory (the Buffer branch of createRulesFileFromSource; the implementation
module is not under src/).  Standard UTF-8 decoding of a byte list into a
character list; `none` on a malformed sequence. -/
def decodeUtf8 : List Nat → Option (List Char)
  | [] => some []
  | b :: rest =>
    if b < 128 then
      (decodeUtf8 rest).map (fun cs => Char.ofNat b :: cs)
    else if b < 194 then
      none
    else if b < 224 then
      match rest with
      | c1 :: rest2 =>
        if contByte c1 then
          (decodeUtf8 rest2).map
            (fun cs => Char.ofNat ((b - 192) * 64 + (c1 - 128)) :: cs)
        else none
      | [] => none
    else if b < 240 then
      match rest with
      | c1 :: c2 :: rest3 =>
        if contByte c1 && contByte c2 then
          (decodeUtf8 rest3).map
            (fun cs =>
              Char.ofNat ((b - 224) * 4096 + (c1 - 128) * 64 + (c2 - 128)) :: cs)
        else none
      | _ => none
    else if b < 245 then
      match rest with
      | c1 :: c2 :: c3 :: rest4 =>
        if contByte c1 && contByte c2 && contByte c3 then
          (decodeUtf8 rest4).map
            (fun cs =>
              Char.ofNat ((b - 240) * 262144 + (c1 - 128) * 4096 +
                (c2 - 128) * 64 + (c3 - 128)) :: cs)
        else none
      | _ => none
    else none

/-- The `string | Buffer` source argument of createRulesFileFromSource:
either text, or raw bytes to be decoded as UTF-8. -/
inductive RuleSource where
  | text (s : String)
  | bytes (b : List Nat)
  deriving DecidableEq, Repr

/-- Decoded content of a rules source: text passes through, bytes are
UTF-8 decoded. -/
def decodeSource : RuleSource → Option String
  | .text s => some s
  | .bytes b => (decodeUtf8 b).map (fun cs => String.mk cs)

/-- Modelled from the spec: the validating RulesFile factory
`createRulesFileFromSource` (implementation module not under src/).
Validates name and decoded content are non-empty; on failure (empty name,
empty content, or decode failure) fails with InvalidArgument; no network
interaction (a pure, local function).  Spec sections 4.1 and 8. -/
def createRulesFileFromSource (name : String) (src : RuleSource) :
    Except ErrorKind RulesFile :=
  if name = "" then .error .invalidArgument
  else
    match decodeSource src with
    | none => .error .invalidArgument
    | some content =>
      if content = "" then .error .invalidArgument
      else .ok ⟨name, content⟩

/-- The fully qualified resource path prelude for rulesets of a project. -/
def resolvePre (projectId : String) : String :=
  "projects/" ++ projectId ++ "/rulesets/"

/-- Modelled from the spec: the name resolver direction
`resolve(shortName) -> fullResourceName` (spec section 4.2; the resolver
module is not under src/).  Prepends the configured project identifier
following the backend resource-path grammar. -/
def resolve (projectId shortName : String) : String :=
  resolvePre projectId ++ shortName

/-- Does the character list `p` start the character list `s`? -/
def lstartsWith : List Char → List Char → Bool
  | [], _ => true
  | _ :: _, [] => false
  | a :: p, b :: s => a == b && lstartsWith p s

/-- Modelled from the spec: the name resolver inverse
`shorten(fullResourceName) -> shortName` (spec section 4.2; the resolver
module is not under src/).  Strips the project-specific path prelude;
fails (InvalidArgument, modelled as none) if the full name does not match
the expected project prelude. -/
def shorten (projectId full : String) : Option String :=
  let p := resolvePre projectId
  if lstartsWith p.data full.data then
    some (String.mk (full.data.drop p.data.length))
  else none

/-- A syntactically valid short name: non-empty, with no path separator. -/
def validShortName (s : String) : Bool :=
  !s.isEmpty && s.data.all (fun c => c != '/')

/-- Modelled from the spec: the app-configuration collaborator, supplying
the project identifier and the optional default storage bucket
(spec sections 2 and 6; this collaborator is not under src/). -/
structure AppConfig where
  projectId : String
  defaultBucket : Option String
  deriving DecidableEq, Repr

/-- Modelled from the spec: the abstract rules-backend state the injected
backend collaborator operates on (spec section 6; the backend api-client
module is not under src/).  Holds the rulesets in backend order, the
document-database binding, the per-bucket storage bindings, a counter for
backend-assigned names, and a scripted fault for the next set-binding call
(the test-double error injection of spec section 9). -/
structure BackendState where
  rulesets : List Ruleset
  firestoreBinding : Option String
  storageBindings : List (String × String)
  nextId : Nat
  bindFault : Option ErrorKind
  deriving DecidableEq, Repr

/-- Backend-assigned short name of the `i`-th created ruleset. -/
def backendName (i : Nat) : String :=
  "rs-" ++ toString i

/-- Backend-assigned creation-time string of the `i`-th created ruleset. -/
def backendTime (i : Nat) : String :=
  "ct-" ++ toString i

/-- The ruleset the backend builds for creation number `i` from the
supplied files, in the supplied order. -/
def mkBackendRuleset (i : Nat) (files : List RulesFile) : Ruleset :=
  ⟨⟨backendName i, backendTime i⟩, files⟩

/-- Modelled from the spec: the backend create call — compiles the supplied
files into a fresh ruleset with a backend-assigned name and create time and
stores it (spec sections 3 and 6; the api-client module is not under
src/). -/
def createRulesetOp (st : BackendState) (files : List RulesFile) :
    Ruleset × BackendState :=
  let rs := mkBackendRuleset st.nextId files
  (rs, { st with rulesets := st.rulesets ++ [rs], nextId := st.nextId + 1 })

/-- Modelled from the spec: `createRuleset(file)` of the facade — one
network call creating a ruleset whose source is the single supplied file
(security-rules.ts lines 90-97 declare it; the implementation module is
not under src/). -/
def createRuleset (st : BackendState) (file : RulesFile) :
    Ruleset × BackendState :=
  createRulesetOp st [file]

/-- Modelled from the spec: `getRuleset(name)` — looks the short name up in
the backend store; NotFound when no ruleset has that name
(security-rules.ts lines 99-109 declare it; the implementation module is
not under src/). -/
def getRulesetOp (st : BackendState) (name : String) :
    Except ErrorKind Ruleset :=
  match st.rulesets.find? (fun r => r.name == name) with
  | none => .error .notFound
  | some rs => .ok rs

/-- Modelled from the spec: `deleteRuleset(name)` — removes the named
ruleset; rejects with NotFound when no ruleset has that name
(security-rules.ts lines 111-121 declare it; the implementation module is
not under src/). -/
def deleteRulesetOp (st : BackendState) (name : String) :
    Except ErrorKind BackendState :=
  if st.rulesets.any (fun r => r.name == name) then
    .ok { st with rulesets := st.rulesets.filter (fun r => !(r.name == name)) }
  else .error .notFound

/-- Modelled from the spec: the backend set-binding call for the
document-database target (spec section 6; the api-client module is not
under src/).  A scripted bind fault fails the call with the scripted error
and no state change; otherwise the binding is replaced, NotFound when the
referenced ruleset does not exist. -/
def setFirestoreBinding (st : BackendState) (name : String) :
    Except ErrorKind BackendState :=
  match st.bindFault with
  | some e => .error e
  | none =>
    if st.rulesets.any (fun r => r.name == name) then
      .ok { st with firestoreBinding := some name }
    else .error .notFound

/-- Modelled from the spec: the backend set-binding call for a storage
bucket target (spec section 6; the api-client module is not under src/). -/
def setStorageBinding (st : BackendState) (bucket name : String) :
    Except ErrorKind BackendState :=
  match st.bindFault with
  | some e => .error e
  | none =>
    if st.rulesets.any (fun r => r.name == name) then
      .ok { st with storageBindings :=
              (bucket, name) :: st.storageBindings.filter (fun p => !(p.1 == bucket)) }
    else .error .notFound

/-- Modelled from the spec: bucket resolution for the storage binding
family (spec section 4.4; the implementation module is not under src/).
An explicit bucket must be a non-empty string; an omitted bucket resolves
to the configured default bucket, failing with InvalidArgument when none
is configured. -/
def resolveBucket (cfg : AppConfig) (bucket : Option String) :
    Except ErrorKind String :=
  match bucket with
  | some b => if b = "" then .error .invalidArgument else .ok b
  | none =>
    match cfg.defaultBucket with
    | some b => if b = "" then .error .invalidArgument else .ok b
    | none => .error .invalidArgument

/-- Modelled from the spec: `getFirestoreRuleset()` — fetches the
document-database binding, then the full ruleset it references; NotFound
when no binding exists (security-rules.ts lines 135-142 declare it; the
implementation module is not under src/). -/
def getFirestoreRuleset (st : BackendState) : Except ErrorKind Ruleset :=
  match st.firestoreBinding with
  | none => .error .notFound
  | some name => getRulesetOp st name

/-- Modelled from the spec: `getStorageRuleset(bucket?)` — resolves the
bucket, fetches that bucket's binding, then the referenced ruleset
(security-rules.ts lines 163-173 declare it; the implementation module is
not under src/). -/
def getStorageRuleset (cfg : AppConfig) (st : BackendState)
    (bucket : Option String) : Except ErrorKind Ruleset :=
  match resolveBucket cfg bucket with
  | .error e => .error e
  | .ok b =>
    match st.storageBindings.find? (fun p => p.1 == b) with
    | none => .error .notFound
    | some p => getRulesetOp st p.2

/-- Modelled from the spec: the compound
`releaseFirestoreRulesetFromSource(source)` — first leg creates a ruleset
from the source, second leg binds it to the document database; the two
legs are not transactional and a bind failure is surfaced with the created
ruleset left in place (security-rules.ts lines 144-151 declare it; the
implementation module is not under src/; spec section 4.4).  Returns the
result together with the backend state after the operation. -/
def releaseFirestoreRulesetFromSource (st : BackendState) (src : RuleSource) :
    Except ErrorKind Ruleset × BackendState :=
  match createRulesFileFromSource "firestore.rules" src with
  | .error e => (.error e, st)
  | .ok file =>
    let p := createRulesetOp st [file]
    match setFirestoreBinding p.2 p.1.name with
    | .error e => (.error e, p.2)
    | .ok st2 => (.ok p.1, st2)

/-- Modelled from the spec: the compound
`releaseStorageRulesetFromSource(source, bucket?)` — resolves the bucket
locally before any network call, then create leg, then bind leg; not
transactional (security-rules.ts lines 175-186 declare it; the
implementation module is not under src/; spec sections 4.4 and 8). -/
def releaseStorageRulesetFromSource (cfg : AppConfig) (st : BackendState)
    (src : RuleSource) (bucket : Option String) :
    Except ErrorKind Ruleset × BackendState :=
  match resolveBucket cfg bucket with
  | .error e => (.error e, st)
  | .ok b =>
    match createRulesFileFromSource "storage.rules" src with
    | .error e => (.error e, st)
    | .ok file =>
      let p := createRulesetOp st [file]
      match setStorageBinding p.2 b p.1.name with
      | .error e => (.error e, p.2)
      | .ok st2 => (.ok p.1, st2)

/-- The union-typed ruleset reference parameter `string | RulesetMetadata`
of the release operations (spec section 9): a short name, or a
metadata-shaped value whose name field is extracted. -/
inductive RulesetRef where
  | byName (s : String)
  | byMeta (m : RulesetMetadata)
  deriving DecidableEq, Repr

/-- The short name a ruleset reference resolves to. -/
def refName : RulesetRef → String
  | .byName s => s
  | .byMeta m => m.name

/-- Modelled from the spec: `releaseStorageRuleset(ruleset, bucket?)` —
resolves the bucket locally before any network call, then updates that
bucket's binding to reference the already-existing ruleset named by the
string or metadata argument (security-rules.ts lines 188-200 declare it;
the implementation module is not under src/; spec section 4.4). -/
def releaseStorageRuleset (cfg : AppConfig) (st : BackendState)
    (ref : RulesetRef) (bucket : Option String) :
    Except ErrorKind BackendState :=
  match resolveBucket cfg bucket with
  | .error e => .error e
  | .ok b => setStorageBinding st b (refName ref)

/-- Modelled from the spec: `listRulesetMetadata(pageSize?, pageToken?)`
(security-rules.ts lines 123-133 declare it; the implementation and
api-client modules are not under src/).  Page size defaults to 100, the
service maximum; larger requests are clamped to 100 (the one consistently
applied policy of this model); zero is out of range (InvalidArgument).
The opaque continuation token is modelled as the Nat offset the backend
encodes in it; a token pointing past the listing is rejected. -/
def listRulesetMetadata (st : BackendState) (pageSize : Option Nat)
    (pageToken : Option Nat) : Except ErrorKind RulesetMetadataList :=
  if pageSize = some 0 then .error .invalidArgument
  else
    let size := min (pageSize.getD 100) 100
    let start := pageToken.getD 0
    if st.rulesets.length < start then .error .notFound
    else
      .ok { rulesets := ((st.rulesets.drop start).take size).map rulesetMeta,
            nextPageToken :=
              if start + size < st.rulesets.length then some (start + size)
              else none }

/-- The client-side chaining loop over `listRulesetMetadata`: starting from
a page offset, collect the page, follow `nextPageToken` while present,
stop when a page omits the token (or on error, or when the fuel runs
out). -/
def chainCollect (st : BackendState) (size : Nat) :
    Nat → Nat → List RulesetMetadata
  | _, 0 => []
  | start, fuel + 1 =>
    match listRulesetMetadata st (some size) (some start) with
    | .error _ => []
    | .ok page =>
      match page.nextPageToken with
      | none => page.rulesets
      | some t => page.rulesets ++ chainCollect st size t fuel



theorem lstartsWith_append (p s : List Char) : lstartsWith p (p ++ s) = true := by
  induction p with
  | nil => rfl
  | cons a t ih => simp [lstartsWith, ih]

theorem string_append_ne_empty (s t : String) (h : s ≠ "") : s ++ t ≠ "" := by
  intro he
  apply h
  have hd := congrArg String.data he
  rw [String.data_append] at hd
  exact String.ext (List.append_eq_nil.mp hd).1

/-- C3: for every syntactically valid short name `x`, the name resolver
satisfies the round-trip law `shorten (resolve x) = x`: resolving prepends
the project path prelude and shortening strips it back off exactly. -/
theorem claim_C3 (projectId x : String) (hx : validShortName x = true) :
    shorten projectId (resolve projectId x) = some x := by
  simp only [shorten, resolve, String.data_append]
  rw [lstartsWith_append]
  simp [List.drop_left]

theorem claim_C3_witness :
    validShortName "my-ruleset" = true ∧
      shorten "project-id" (resolve "project-id" "my-ruleset") =
        some "my-ruleset" :=
  ⟨by decide, claim_C3 "project-id" "my-ruleset" (by decide)⟩

/-- C2: for every non-empty name and source whose decoded content is
non-empty, `createRulesFileFromSource` returns a RulesFile with exactly the
given name and decoded content; for an empty name, a decode failure, or
empty decoded content it fails with InvalidArgument (a pure, local
computation with no network interaction). -/
theorem claim_C2 (name : String) (src : RuleSource) :
    (∀ content, decodeSource src = some content → name ≠ "" → content ≠ "" →
        createRulesFileFromSource name src = .ok ⟨name, content⟩) ∧
    (name = "" ∨ decodeSource src = none ∨ decodeSource src = some "" →
        createRulesFileFromSource name src = .error .invalidArgument) := by
  constructor
  · intro content hdec hn hc
    simp [createRulesFileFromSource, hdec, hn, hc]
  · intro h
    rcases h with hn | hdec | hdec
    · simp [createRulesFileFromSource, hn]
    · simp [createRulesFileFromSource, hdec]
    · by_cases hn : name = ""
      · simp [createRulesFileFromSource, hn]
      · simp [createRulesFileFromSource, hn, hdec]

theorem claim_C2_witness :
    decodeSource (.text "// allow all") = some "// allow all" ∧
      createRulesFileFromSource "firestore.rules" (.text "// allow all") =
        .ok ⟨"firestore.rules", "// allow all"⟩ :=
  ⟨rfl, (claim_C2 "firestore.rules" (.text "// allow all")).1 "// allow all"
    rfl (by decide) (by decide)⟩

/-- C7: deleting a ruleset by a short name that matches no existing ruleset
rejects with NotFound (never a silent no-op success). -/
theorem claim_C7 (st : BackendState) (n : String)
    (h : ∀ r ∈ st.rulesets, r.name ≠ n) :
    deleteRulesetOp st n = .error .notFound := by
  unfold deleteRulesetOp
  rw [if_neg]
  intro hany
  rcases List.any_eq_true.mp hany with ⟨r, hr, hbeq⟩
  exact h r hr (by simpa using hbeq)

theorem claim_C7_witness :
    (∀ r ∈ (BackendState.mk [mkBackendRuleset 0 []] none [] 1 none).rulesets,
        r.name ≠ "nonexistent") ∧
      deleteRulesetOp ⟨[mkBackendRuleset 0 []], none, [], 1, none⟩
          "nonexistent" = .error .notFound :=
  ⟨by decide, claim_C7 ⟨[mkBackendRuleset 0 []], none, [], 1, none⟩
    "nonexistent" (by decide)⟩

/-- C8: when no ruleset is bound to the document-database target,
`getFirestoreRuleset` rejects with NotFound; when a binding exists it
fetches the full ruleset the binding references (the `getRuleset` lookup on
the referenced name). -/
theorem claim_C8 (st : BackendState) :
    (st.firestoreBinding = none →
        getFirestoreRuleset st = .error .notFound) ∧
    (∀ n, st.firestoreBinding = some n →
        getFirestoreRuleset st = getRulesetOp st n) := by
  constructor
  · intro h
    simp [getFirestoreRuleset, h]
  · intro n h
    simp [getFirestoreRuleset, h]

theorem claim_C8_witness :
    getFirestoreRuleset ⟨[], none, [], 0, none⟩ = .error .notFound :=
  (claim_C8 ⟨[], none, [], 0, none⟩).1 rfl

/-- C9: a created ruleset carries exactly the supplied files, in the
supplied order, as its source, and its backend-assigned name and create
time are non-empty; in particular `createRuleset` on one file yields source
equal to that singleton list. -/
theorem claim_C9 (st : BackendState) (file : RulesFile)
    (files : List RulesFile) :
    (createRulesetOp st files).1.source = files ∧
    (createRuleset st file).1.source = [file] ∧
    (createRuleset st file).1.name ≠ "" ∧
    (createRuleset st file).1.createTime ≠ "" := by
  refine ⟨rfl, rfl, ?_, ?_⟩
  · exact string_append_ne_empty "rs-" (toString st.nextId) (by decide)
  · exact string_append_ne_empty "ct-" (toString st.nextId) (by decide)



/-- C5: listing with pageSize omitted behaves exactly as pageSize 100 (the
default and service maximum), and any pageSize above 100 is clamped to 100
— the one consistently applied out-of-range policy of the model. -/
theorem claim_C5 (st : BackendState) (tok : Option Nat) (n : Nat)
    (h : 100 < n) :
    listRulesetMetadata st none tok = listRulesetMetadata st (some 100) tok ∧
    listRulesetMetadata st (some n) tok =
      listRulesetMetadata st (some 100) tok := by
  constructor
  · rfl
  · unfold listRulesetMetadata
    rw [if_neg (by simp only [Option.some.injEq]; omega)]
    rw [if_neg (show ¬((some 100 : Option Nat) = some 0) by decide)]
    simp only [Option.getD_some, Nat.min_self]
    rw [show min n 100 = 100 by omega]

theorem claim_C5_witness :
    listRulesetMetadata ⟨[], none, [], 0, none⟩ (some 150) none =
      listRulesetMetadata ⟨[], none, [], 0, none⟩ (some 100) none :=
  (claim_C5 ⟨[], none, [], 0, none⟩ none 150 (by decide)).2

/-- C6: for every storage-binding operation — releaseStorageRulesetFromSource,
getStorageRuleset and releaseStorageRuleset — an omitted bucket with no
configured default bucket fails with InvalidArgument before any network
call (the backend state is left untouched); when a default bucket is
configured, the omitted-bucket call behaves exactly as the call naming
that default bucket. -/
theorem claim_C6 (cfg : AppConfig) (st : BackendState) (src : RuleSource)
    (ref : RulesetRef) :
    (cfg.defaultBucket = none →
        releaseStorageRulesetFromSource cfg st src none =
          (.error .invalidArgument, st) ∧
        getStorageRuleset cfg st none = .error .invalidArgument ∧
        releaseStorageRuleset cfg st ref none = .error .invalidArgument) ∧
    (∀ b, cfg.defaultBucket = some b →
        releaseStorageRulesetFromSource cfg st src none =
          releaseStorageRulesetFromSource cfg st src (some b) ∧
        getStorageRuleset cfg st none = getStorageRuleset cfg st (some b) ∧
        releaseStorageRuleset cfg st ref none =
          releaseStorageRuleset cfg st ref (some b)) := by
  constructor
  · intro h
    refine ⟨?_, ?_, ?_⟩
    · simp [releaseStorageRulesetFromSource, resolveBucket, h]
    · simp [getStorageRuleset, resolveBucket, h]
    · simp [releaseStorageRuleset, resolveBucket, h]
  · intro b h
    refine ⟨?_, ?_, ?_⟩
    · simp [releaseStorageRulesetFromSource, resolveBucket, h]
    · simp [getStorageRuleset, resolveBucket, h]
    · simp [releaseStorageRuleset, resolveBucket, h]

theorem claim_C6_witness :
    (releaseStorageRulesetFromSource ⟨"pid", none⟩ ⟨[], none, [], 0, none⟩
        (.text "// r") none = (.error .invalidArgument, ⟨[], none, [], 0, none⟩) ∧
      getStorageRuleset ⟨"pid", none⟩ ⟨[], none, [], 0, none⟩ none =
        .error .invalidArgument ∧
      releaseStorageRuleset ⟨"pid", none⟩ ⟨[], none, [], 0, none⟩
        (.byName "rs-0") none = .error .invalidArgument) ∧
      getStorageRuleset ⟨"pid", some "bkt"⟩ ⟨[], none, [], 0, none⟩ none =
        getStorageRuleset ⟨"pid", some "bkt"⟩ ⟨[], none, [], 0, none⟩
          (some "bkt") :=
  ⟨(claim_C6 ⟨"pid", none⟩ ⟨[], none, [], 0, none⟩ (.text "// r")
      (.byName "rs-0")).1 rfl,
   ((claim_C6 ⟨"pid", some "bkt"⟩ ⟨[], none, [], 0, none⟩ (.text "// r")
      (.byName "rs-0")).2 "bkt" rfl).2.1⟩

theorem listRulesetMetadata_eq (st : BackendState) (size start : Nat)
    (h1 : 0 < size) (h2 : size ≤ 100) (hs : start ≤ st.rulesets.length) :
    listRulesetMetadata st (some size) (some start) =
      .ok ⟨((st.rulesets.drop start).take size).map rulesetMeta,
           if start + size < st.rulesets.length then some (start + size)
           else none⟩ := by
  unfold listRulesetMetadata
  rw [if_neg (by simp only [Option.some.injEq]; omega)]
  simp only [Option.getD_some]
  rw [if_neg (by omega)]
  rw [Nat.min_eq_left h2]

theorem head?_take_map {α β : Type} (f : α → β) (l : List α) (n : Nat)
    (h : 0 < n) : ((l.take n).map f).head? = (l.map f).head? := by
  cases l with
  | nil => simp
  | cons a t =>
    cases n with
    | zero => omega
    | succ m => simp

theorem chainCollect_drop (st : BackendState) (size : Nat) (h1 : 0 < size)
    (h2 : size ≤ 100) :
    ∀ fuel start, st.rulesets.length - start < fuel →
      start ≤ st.rulesets.length →
      chainCollect st size start fuel =
        (st.rulesets.map rulesetMeta).drop start := by
  intro fuel
  induction fuel with
  | zero => intro start hlt _; omega
  | succ fuel ih =>
    intro start hlt hle
    rw [chainCollect]
    rw [listRulesetMetadata_eq st size start h1 h2 hle]
    by_cases hmore : start + size < st.rulesets.length
    · rw [if_pos hmore]
      dsimp only
      rw [ih (start + size) (by omega) (by omega)]
      rw [← List.map_drop, ← List.map_drop, ← List.map_append,
        show st.rulesets.drop (start + size) =
            (st.rulesets.drop start).drop size from
          (List.drop_drop size start st.rulesets).symm,
        List.take_append_drop]
    · rw [if_neg hmore]
      dsimp only
      have hlen : (st.rulesets.drop start).length ≤ size := by
        rw [List.length_drop]; omega
      rw [List.take_of_length_le hlen, List.map_drop]

/-- C4: a first call with no page token starts at the beginning of the
backend listing (it equals the offset-0 call and its first page's head is
the backend's first element), and chaining returned nextPageToken values —
which terminates within `length + 1` pages because the last page carries no
token — visits every ruleset exactly once, in backend order, with no
duplicates and no gaps. -/
theorem claim_C4 (st : BackendState) (size : Nat) (h1 : 0 < size)
    (h2 : size ≤ 100) :
    listRulesetMetadata st (some size) none =
      listRulesetMetadata st (some size) (some 0) ∧
    (∀ page, listRulesetMetadata st (some size) none = .ok page →
        page.rulesets.head? = (st.rulesets.map rulesetMeta).head?) ∧
    chainCollect st size 0 (st.rulesets.length + 1) =
      st.rulesets.map rulesetMeta := by
  refine ⟨rfl, ?_, ?_⟩
  · intro page hp
    rw [show listRulesetMetadata st (some size) none =
      listRulesetMetadata st (some size) (some 0) from rfl] at hp
    rw [listRulesetMetadata_eq st size 0 h1 h2 (by omega)] at hp
    cases hp
    simp only [List.drop_zero]
    exact head?_take_map rulesetMeta st.rulesets size h1
  · have h := chainCollect_drop st size h1 h2 (st.rulesets.length + 1) 0
      (by omega) (by omega)
    simpa using h

theorem claim_C4_witness :
    chainCollect ⟨[mkBackendRuleset 0 [], mkBackendRuleset 1 [],
        mkBackendRuleset 2 []], none, [], 3, none⟩ 2 0
        ((BackendState.mk [mkBackendRuleset 0 [], mkBackendRuleset 1 [],
          mkBackendRuleset 2 []] none [] 3 none).rulesets.length + 1) =
      (BackendState.mk [mkBackendRuleset 0 [], mkBackendRuleset 1 [],
        mkBackendRuleset 2 []] none [] 3 none).rulesets.map rulesetMeta :=
  (claim_C4 ⟨[mkBackendRuleset 0 [], mkBackendRuleset 1 [],
    mkBackendRuleset 2 []], none, [], 3, none⟩ 2 (by decide) (by decide)).2.2



theorem find?_fresh_append (l : List Ruleset) (rs : Ruleset) (n : String)
    (hn : rs.name = n) (h : ∀ r ∈ l, r.name ≠ n) :
    (l ++ [rs]).find? (fun r => r.name == n) = some rs := by
  rw [List.find?_append]
  have h1 : l.find? (fun r => r.name == n) = none := by
    rw [List.find?_eq_none]
    intro x hx
    simpa using h x hx
  rw [h1]
  simp [List.find?_cons, hn]

/-- C1: when the create leg of the compound release-from-source operation
succeeds and the bind leg fails (a scripted bind fault), the surfaced
result is the bind failure; the newly created ruleset persists (appended to
the store, nothing rolled back or deleted) as an orphan retrievable via
getRuleset on its backend-assigned name, and the previous binding is
untouched — for the Firestore operation and its storage counterpart
alike. -/
theorem claim_C1 (cfg : AppConfig) (st : BackendState) (src : RuleSource)
    (e : ErrorKind) (content b : String)
    (hf : st.bindFault = some e)
    (hdec : decodeSource src = some content)
    (hc : content ≠ "") (hb : b ≠ "")
    (hfresh : ∀ r ∈ st.rulesets, r.name ≠ backendName st.nextId) :
    ((releaseFirestoreRulesetFromSource st src).1 = .error e ∧
      (releaseFirestoreRulesetFromSource st src).2.rulesets =
        st.rulesets ++ [mkBackendRuleset st.nextId
          [⟨"firestore.rules", content⟩]] ∧
      getRulesetOp (releaseFirestoreRulesetFromSource st src).2
          (backendName st.nextId) =
        .ok (mkBackendRuleset st.nextId [⟨"firestore.rules", content⟩]) ∧
      (releaseFirestoreRulesetFromSource st src).2.firestoreBinding =
        st.firestoreBinding) ∧
    ((releaseStorageRulesetFromSource cfg st src (some b)).1 = .error e ∧
      (releaseStorageRulesetFromSource cfg st src (some b)).2.rulesets =
        st.rulesets ++ [mkBackendRuleset st.nextId
          [⟨"storage.rules", content⟩]] ∧
      getRulesetOp (releaseStorageRulesetFromSource cfg st src (some b)).2
          (backendName st.nextId) =
        .ok (mkBackendRuleset st.nextId [⟨"storage.rules", content⟩]) ∧
      (releaseStorageRulesetFromSource cfg st src (some b)).2.storageBindings =
        st.storageBindings) := by
  have hcf : createRulesFileFromSource "firestore.rules" src =
      .ok ⟨"firestore.rules", content⟩ := by
    simp [createRulesFileFromSource, hdec, hc]
  have hcs : createRulesFileFromSource "storage.rules" src =
      .ok ⟨"storage.rules", content⟩ := by
    simp [createRulesFileFromSource, hdec, hc]
  have hrelF : releaseFirestoreRulesetFromSource st src =
      (.error e,
        { st with
            rulesets := st.rulesets ++ [mkBackendRuleset st.nextId
              [⟨"firestore.rules", content⟩]],
            nextId := st.nextId + 1 }) := by
    simp [releaseFirestoreRulesetFromSource, hcf, createRulesetOp,
      setFirestoreBinding, hf]
  have hrelS : releaseStorageRulesetFromSource cfg st src (some b) =
      (.error e,
        { st with
            rulesets := st.rulesets ++ [mkBackendRuleset st.nextId
              [⟨"storage.rules", content⟩]],
            nextId := st.nextId + 1 }) := by
    simp [releaseStorageRulesetFromSource, resolveBucket, hb, hcs,
      createRulesetOp, setStorageBinding, hf]
  refine ⟨⟨?_, ?_, ?_, ?_⟩, ⟨?_, ?_, ?_, ?_⟩⟩
  · rw [hrelF]
  · rw [hrelF]
  · rw [hrelF]
    unfold getRulesetOp
    dsimp only
    rw [find?_fresh_append st.rulesets
      (mkBackendRuleset st.nextId [⟨"firestore.rules", content⟩])
      (backendName st.nextId) rfl hfresh]
  · rw [hrelF]
  · rw [hrelS]
  · rw [hrelS]
  · rw [hrelS]
    unfold getRulesetOp
    dsimp only
    rw [find?_fresh_append st.rulesets
      (mkBackendRuleset st.nextId [⟨"storage.rules", content⟩])
      (backendName st.nextId) rfl hfresh]
  · rw [hrelS]

theorem claim_C1_witness :
    (releaseFirestoreRulesetFromSource ⟨[], none, [], 0, some .unavailable⟩
        (.text "// r")).1 = .error .unavailable :=
  (claim_C1 ⟨"pid", none⟩ ⟨[], none, [], 0, some .unavailable⟩
    (.text "// r") .unavailable "// r" "bkt" rfl rfl (by decide) (by decide)
    (by decide)).1.1

end SecRules
